import Mathlib

/-!
Shallow embedding of src/library_manager.py (a Streamlit personal library
manager) and proofs about its catalog store and query operations.

The catalog is a Python list of dicts with keys title, author, year, genre,
read; it is persisted to library.json via json.dump / json.load.  We embed
books as a structure, the JSON layer as an inductive JSON value type, and
the file as an explicit state (absent, unreadable, or holding a JSON value).
All view-layer operations that touch the catalog (append in add_book_view,
list.remove in remove_book_view, the comprehension filters, sorted() in
view_all_books, and the aggregate block of statistics_view) are embedded as
pure functions below, each annotated with its source lines.
-/

namespace LibraryManager

/-- Book record: the dict built at lines 84-90 of add_book_view, with keys
title, author, year, genre, read. -/
structure Book where
  title : String
  author : String
  year : Int
  genre : String
  read : Bool
deriving DecidableEq, Repr

/-- JSON values, as produced by json.dump and consumed by json.load
(restricted to the constructors this program's data uses). -/
inductive Json where
  | str (s : String)
  | num (n : Int)
  | bool (b : Bool)
  | arr (elems : List Json)
  | obj (fields : List (String × Json))

/-- Serialization of one book: json.dump writes the dict's fields in
insertion order (title, author, year, genre, read). -/
def encodeBook (b : Book) : Json :=
  Json.obj [("title", Json.str b.title), ("author", Json.str b.author),
            ("year", Json.num b.year), ("genre", Json.str b.genre),
            ("read", Json.bool b.read)]

/-- Reading one book back from its JSON object form. -/
def decodeBook : Json → Option Book
  | Json.obj [("title", Json.str t), ("author", Json.str a),
              ("year", Json.num y), ("genre", Json.str g),
              ("read", Json.bool r)] => some ⟨t, a, y, g, r⟩
  | _ => none

/-- Serialization of the whole catalog: json.dump of the Python list. -/
def encodeLibrary (catalog : List Book) : Json :=
  Json.arr (catalog.map encodeBook)

/-- Reading a list of books back from a list of JSON values; fails if any
element fails. -/
def decodeBooks : List Json → Option (List Book)
  | [] => some []
  | j :: js =>
    match decodeBook j, decodeBooks js with
    | some b, some bs => some (b :: bs)
    | _, _ => none

/-- Reading the catalog back from its JSON array form. -/
def decodeLibrary : Json → Option (List Book)
  | Json.arr es => decodeBooks es
  | _ => none

/-- State of the library.json file: missing, present but unreadable or
unparsable (open or json.load raises), or holding a JSON value. -/
inductive FileState where
  | absent
  | unreadable
  | stored (j : Json)

/-- Lines 19-29, load_library: returns [] when the file does not exist;
returns json.load's value on success; catches any exception, reports it
via st.error and returns [].  The result pairs the returned JSON value
with a flag recording whether st.error was called.  The function is total
over every FileState: no exception propagates past it. -/
def load_library : FileState → Json × Bool
  | FileState.absent => (Json.arr [], false)
  | FileState.unreadable => (Json.arr [], true)
  | FileState.stored j => (j, false)

/-- Lines 31-37, save_library on the successful path: json.dump overwrites
the file with the serialized catalog. -/
def save_library (catalog : List Book) : FileState :=
  FileState.stored (encodeLibrary catalog)

/-- Line 92 of add_book_view: st.session_state.library.append(new_book). -/
def add_book (catalog : List Book) (b : Book) : List Book :=
  catalog ++ [b]

/-- Python str.lower(): every character mapped to its lower-case form
(stated through the character list so that it computes by kernel
reduction). -/
def lowerStr (s : String) : String :=
  ⟨s.data.map Char.toLower⟩

/-- Python str.strip(): leading and trailing whitespace characters
removed. -/
def stripChars (l : List Char) : List Char :=
  ((l.dropWhile Char.isWhitespace).reverse.dropWhile Char.isWhitespace).reverse

/-- Python str.strip() on strings. -/
def stripStr (s : String) : String :=
  ⟨stripChars s.data⟩

/-- Python list.remove as called at line 133: removes the first
structurally equal element, raises ValueError (the error case) when no
element of the list equals the argument. -/
def listRemove (catalog : List Book) (b : Book) : Except Unit (List Book) :=
  match catalog with
  | [] => Except.error ()
  | x :: xs =>
    if x = b then Except.ok xs
    else
      match listRemove xs b with
      | Except.ok ys => Except.ok (x :: ys)
      | Except.error e => Except.error e

/-- Character-list version of Python's substring test (needle in hay). -/
def leadingMatch : List Char → List Char → Bool
  | [], _ => true
  | _ :: _, [] => false
  | c :: cs, d :: ds => c = d && leadingMatch cs ds

/-- Python's (needle in hay) on character lists: true iff needle occurs
contiguously in hay. -/
def containsChars (hay needle : List Char) : Bool :=
  match hay with
  | [] => needle.isEmpty
  | _ :: t => leadingMatch needle hay || containsChars t needle

/-- Python's (needle in hay) on strings. -/
def strContains (hay needle : String) : Bool :=
  containsChars hay.data needle.data

/-- Lines 113-120 of remove_book_view: the search input is lowercased and,
when truthy (non-empty), the library is filtered to books whose lowercased
title or author contains it; an empty input yields the whole library. -/
def found_books (library : List Book) (input : String) : List Book :=
  let search_term := lowerStr input
  if search_term = "" then library
  else
    library.filter fun b =>
      strContains (lowerStr b.title) search_term ||
      strContains (lowerStr b.author) search_term

/-- The two search fields offered by the radio button at line 153. -/
inductive SearchType where
  | byTitle
  | byAuthor

/-- Lines 154-160 of search_books_view: the input is stripped and
lowercased; when the result is empty nothing is computed or shown (none);
otherwise the library is filtered on the selected field. -/
def search_results (library : List Book) (ty : SearchType) (input : String) :
    Option (List Book) :=
  let search_term := lowerStr (stripStr input)
  if search_term = "" then none
  else some (library.filter fun b =>
    match ty with
    | SearchType.byTitle => strContains (lowerStr b.title) search_term
    | SearchType.byAuthor => strContains (lowerStr b.author) search_term)

/-- The aggregate values computed by statistics_view. -/
structure Stats where
  total : Nat
  readCount : Nat
  readPercentage : ℚ
  genreHistogram : List (String × Nat)

/-- The genre histogram key at line 241: book's genre when truthy, the
literal value below when the genre string is empty. -/
def unknownGenre : String := "Unknown"

/-- Line 241: genre = book['genre'] if book['genre'] else "Unknown". -/
def effectiveGenre (b : Book) : String :=
  if b.genre = "" then unknownGenre else b.genre

/-- Line 242: genres[genre] = genres.get(genre, 0) + 1, on a dict kept as
an insertion-ordered association list. -/
def tally (h : List (String × Nat)) (g : String) : List (String × Nat) :=
  match h with
  | [] => [(g, 1)]
  | (k, n) :: rest =>
    if k = g then (k, n + 1) :: rest else (k, n) :: tally rest g

/-- Lines 239-242: the genre-distribution dict built by the for loop. -/
def genreHist (library : List Book) : List (String × Nat) :=
  library.foldl (fun h b => tally h (effectiveGenre b)) []

/-- Number recorded for genre g by the histogram (0 when g is absent),
reading the association list front to back as the Python dict does. -/
def histCount (h : List (String × Nat)) (g : String) : Nat :=
  match h with
  | [] => 0
  | (k, n) :: rest => if k = g then n else histCount rest g

/-- Lines 231-242 of statistics_view: total_books = len(library);
read_count = sum(1 for book in library if book['read']);
percentage_read = (read_count / total_books) * 100 if total_books > 0
else 0 (modelled over the rationals); and the genre histogram. -/
def statistics (library : List Book) : Stats where
  total := library.length
  readCount := library.countP fun b => b.read
  readPercentage :=
    if library.length > 0 then
      ((library.countP fun b => b.read : Nat) : ℚ) / (library.length : ℚ) * 100
    else 0
  genreHistogram := genreHist library

/-- The three sort keys offered by the selectbox at lines 184-187. -/
inductive SortKey where
  | title
  | author
  | year

/-- The two sort directions (A-Z / Oldest vs Z-A / Newest). -/
inductive SortDir where
  | asc
  | desc

/-- Python's lexicographic order on strings, at the character-list level:
compare code points position by position, a proper prefix coming first. -/
def listLex : List Char → List Char → Bool
  | [], _ => true
  | _ :: _, [] => false
  | a :: as, b :: bs =>
    if a.toNat = b.toNat then listLex as bs else decide (a.toNat < b.toNat)

/-- Python's (s <= t) on strings. -/
def strLe (s t : String) : Bool :=
  listLex s.data t.data

/-- The sort key functions at lines 190-201: x['title'].lower(),
x['author'].lower(), x['year'], compared with Python's default order. -/
def bookLe (k : SortKey) (a b : Book) : Bool :=
  match k with
  | SortKey.title => strLe (lowerStr a.title) (lowerStr b.title)
  | SortKey.author => strLe (lowerStr a.author) (lowerStr b.author)
  | SortKey.year => decide (a.year ≤ b.year)

/-- The effective comparison used by sorted(): reverse=True sorts as if
each comparison were reversed while equal keys keep their original
relative order, which a stable sort realizes with the flipped
comparator. -/
def sortComparator (k : SortKey) (d : SortDir) (a b : Book) : Bool :=
  match d with
  | SortDir.asc => bookLe k a b
  | SortDir.desc => bookLe k b a

/-- Lines 190-201 of view_all_books: sorted(library, key, reverse), a
stable sort (CPython's Timsort) producing a new list; modelled by the
stable mergeSort with the same comparator. -/
def sortBy (library : List Book) (k : SortKey) (d : SortDir) : List Book :=
  library.mergeSort (sortComparator k d)

/-- One rerun of remove_book_view (lines 102-140) as a state transformer.
The user has typed input into the search box; click is some i when the
Remove button of the i-th listed book was pressed, none otherwise.  The
result is the new library paired with a flag recording whether a warning
was shown (library empty, line 107, or no books found, line 123); none
models an uncaught exception escaping the script run (the ValueError that
list.remove raises when its argument is absent, line 133). -/
def remove_book_view_step (catalog : List Book) (input : String)
    (click : Option Nat) : Option (List Book × Bool) :=
  if catalog.isEmpty then some (catalog, true)
  else
    let found := found_books catalog input
    if found.isEmpty then some (catalog, true)
    else
      match click with
      | none => some (catalog, false)
      | some i =>
        if h : i < found.length then
          match listRemove catalog (found.get ⟨i, h⟩) with
          | Except.ok l => some (l, false)
          | Except.error _ => none
        else some (catalog, false)

/-- Sample book from the worked example in the specification. -/
def bDune : Book := ⟨"Dune", "Herbert", 1965, "Sci-Fi", true⟩

/-- Sample book from the worked example in the specification. -/
def bEmma : Book := ⟨"Emma", "Austen", 1815, "Classic", false⟩

/-- The empty search input. -/
def emptyInput : String := ""

/-! ## Helper lemmas -/

theorem decodeBook_encodeBook (b : Book) : decodeBook (encodeBook b) = some b :=
  rfl

theorem decodeLibrary_encodeLibrary (catalog : List Book) :
    decodeLibrary (encodeLibrary catalog) = some catalog := by
  induction catalog with
  | nil => rfl
  | cons b bs ih =>
    simp only [encodeLibrary, decodeLibrary, List.map_cons, decodeBooks,
      decodeBook_encodeBook]
    simp only [encodeLibrary, decodeLibrary] at ih
    simp [ih]

theorem listRemove_of_not_mem {catalog : List Book} {b : Book} (h : b ∉ catalog) :
    listRemove catalog b = Except.error () := by
  induction catalog with
  | nil => rfl
  | cons x xs ih =>
    simp only [List.mem_cons, not_or] at h
    simp only [listRemove]
    rw [if_neg fun hx => h.1 hx.symm, ih h.2]

theorem listRemove_of_mem {catalog : List Book} {b : Book} (h : b ∈ catalog) :
    ∃ l₁ l₂, catalog = l₁ ++ b :: l₂ ∧ b ∉ l₁ ∧
      listRemove catalog b = Except.ok (l₁ ++ l₂) := by
  induction catalog with
  | nil => cases h
  | cons x xs ih =>
    by_cases hx : x = b
    · refine ⟨[], xs, by simp [hx], by simp, ?_⟩
      simp [listRemove, hx]
    · have hb : b ∈ xs := by
        rcases List.mem_cons.mp h with h1 | h1
        · exact absurd h1.symm hx
        · exact h1
      obtain ⟨l₁, l₂, he, hn, hr⟩ := ih hb
      refine ⟨x :: l₁, l₂, by simp [he], ?_, ?_⟩
      · simp only [List.mem_cons, not_or]
        exact ⟨fun hbx => hx hbx.symm, hn⟩
      · simp [listRemove, hx, hr]

theorem listRemove_append_singleton {catalog : List Book} {b : Book}
    (h : b ∉ catalog) : listRemove (catalog ++ [b]) b = Except.ok catalog := by
  induction catalog with
  | nil => simp [listRemove]
  | cons x xs ih =>
    simp only [List.mem_cons, not_or] at h
    simp only [List.cons_append, listRemove]
    rw [if_neg fun hx => h.1 hx.symm]
    simp only [List.append_eq]
    rw [ih h.2]

theorem mem_found_books {catalog : List Book} {input : String} {b : Book}
    (h : b ∈ found_books catalog input) : b ∈ catalog := by
  simp only [found_books] at h
  split at h
  · exact h
  · exact (List.mem_filter.mp h).1

/-! ## Claim theorems -/

/-- C1: for every book with non-empty title and author, adding it to the
empty catalog, saving and loading yields a catalog containing exactly that
book; in general, loading the state produced by saving any catalog
returns that same catalog, with no error reported. -/
theorem save_load_roundtrip (b : Book) (_ht : b.title ≠ "") (_ha : b.author ≠ "") :
    decodeLibrary (load_library (save_library (add_book [] b))).1 = some [b] ∧
    ∀ catalog : List Book,
      decodeLibrary (load_library (save_library catalog)).1 = some catalog ∧
      (load_library (save_library catalog)).2 = false := by
  refine ⟨decodeLibrary_encodeLibrary [b], fun catalog => ?_⟩
  exact ⟨decodeLibrary_encodeLibrary catalog, rfl⟩

/-- Witness for C1 at the concrete books of the specification's example. -/
theorem save_load_roundtrip_witness :
    bDune.title ≠ "" ∧ bDune.author ≠ "" ∧
    decodeLibrary (load_library (save_library (add_book [] bDune))).1 = some [bDune] ∧
    decodeLibrary (load_library (save_library [bDune, bEmma])).1 = some [bDune, bEmma] :=
  ⟨by decide, by decide, (save_load_roundtrip bDune (by decide) (by decide)).1,
    ((save_load_roundtrip bDune (by decide) (by decide)).2 [bDune, bEmma]).1⟩

/-- C2: load_library returns the empty list when the file is absent; on a
read or parse failure it reports the error and returns the empty list;
and for every possible file state it returns a value rather than
propagating an exception: the result is either the empty-library JSON or
the successfully parsed stored value. -/
theorem load_library_error_handling :
    (load_library FileState.absent = (Json.arr [], false) ∧
      decodeLibrary (load_library FileState.absent).1 = some ([] : List Book)) ∧
    (load_library FileState.unreadable = (Json.arr [], true) ∧
      decodeLibrary (load_library FileState.unreadable).1 = some ([] : List Book)) ∧
    ∀ fs : FileState, (load_library fs).1 = Json.arr [] ∨
      ∃ j, fs = FileState.stored j ∧ load_library fs = (j, false) := by
  refine ⟨⟨rfl, rfl⟩, ⟨rfl, rfl⟩, fun fs => ?_⟩
  cases fs with
  | absent => exact Or.inl rfl
  | unreadable => exact Or.inl rfl
  | stored j => exact Or.inr ⟨j, rfl, rfl⟩

/-- C6: with an empty search term, the remove flow's filter returns the
full catalog unchanged, while the search flow computes no results to
show; both hold for every catalog and either search field. -/
theorem empty_search_term_behaviors (library : List Book) (ty : SearchType) :
    found_books library emptyInput = library ∧
    search_results library ty emptyInput = none :=
  ⟨rfl, rfl⟩

/-- C9: add_book only appends: the length grows by exactly one, the prior
catalog is an unchanged prefix of the result, every pre-existing position
holds its old book, and the new book sits at the last position. -/
theorem add_book_appends (catalog : List Book) (b : Book) :
    (add_book catalog b).length = catalog.length + 1 ∧
    (add_book catalog b).take catalog.length = catalog ∧
    (∀ i, i < catalog.length → (add_book catalog b)[i]? = catalog[i]?) ∧
    (add_book catalog b)[catalog.length]? = some b := by
  refine ⟨by simp [add_book], ?_, fun i hi => ?_, ?_⟩
  · simp [add_book, List.take_left]
  · simp [add_book, List.getElem?_append_left hi]
  · simp [add_book]

/-- Witness for C9 at a concrete catalog and book. -/
theorem add_book_appends_witness :
    0 < ([bEmma] : List Book).length ∧ (add_book [bEmma] bDune)[0]? = some bEmma := by
  have h := (add_book_appends [bEmma] bDune).2.2.1 0 (by decide)
  exact ⟨by decide, by simpa using h⟩

/-- C4 counterexample: remove after add of the same value does not always
yield a catalog without that book.  Adding bDune to the catalog [bDune]
and then removing bDune deletes the first of the two structurally equal
entries, and the result [bDune] still contains the book. -/
theorem remove_after_add_counterexample :
    ∃ result, listRemove (add_book [bDune] bDune) bDune = Except.ok result ∧
      bDune ∈ result :=
  ⟨[bDune], rfl, by decide⟩

/-- C4 amended: remove deletes the first structurally-equal match from the
catalog; when no structurally-equal match exists the remove flow offers no
removal of that book at all (so the catalog stays unchanged, with the
not-found report when the search matches nothing), while the underlying
list removal would signal an error if it were invoked; and remove after
add of a value not already present yields exactly the original catalog,
without that book. -/
theorem remove_contract (catalog : List Book) (b : Book) :
    (b ∈ catalog → ∃ l₁ l₂, catalog = l₁ ++ b :: l₂ ∧ b ∉ l₁ ∧
      listRemove catalog b = Except.ok (l₁ ++ l₂)) ∧
    (b ∉ catalog →
      (∀ input, b ∉ found_books catalog input) ∧
      (∀ input, found_books catalog input = [] →
        remove_book_view_step catalog input none = some (catalog, true)) ∧
      listRemove catalog b = Except.error ()) ∧
    (b ∉ catalog → listRemove (add_book catalog b) b = Except.ok catalog) := by
  refine ⟨fun h => listRemove_of_mem h, fun h => ⟨?_, ?_, listRemove_of_not_mem h⟩,
    fun h => listRemove_append_singleton h⟩
  · intro input hb
    exact h (mem_found_books hb)
  · intro input hf
    by_cases hc : catalog.isEmpty
    · simp [remove_book_view_step, hc]
    · simp [remove_book_view_step, hc, hf]

/-- Witness for C4 amended at a concrete catalog and book. -/
theorem remove_contract_witness :
    bEmma ∉ ([bDune] : List Book) ∧
    listRemove (add_book [bDune] bEmma) bEmma = Except.ok [bDune] :=
  ⟨by decide, (remove_contract [bDune] bEmma).2.2 (by decide)⟩

/-- C8: in the remove flow, every book offered for removal is an element
of the current library, the ValueError branch of list.remove is
unreachable (one rerun of the view with a Remove click never escapes with
an exception), and removing a listed book decreases the library length by
exactly one. -/
theorem remove_flow_safety (catalog : List Book) (input : String) (i : Nat)
    (h : i < (found_books catalog input).length) :
    (found_books catalog input).get ⟨i, h⟩ ∈ catalog ∧
    ∃ rest, remove_book_view_step catalog input (some i) = some (rest, false) ∧
      rest.length + 1 = catalog.length := by
  have hmem : (found_books catalog input).get ⟨i, h⟩ ∈ catalog :=
    mem_found_books (List.get_mem (found_books catalog input) i h)
  obtain ⟨l₁, l₂, he, _, hr⟩ := listRemove_of_mem hmem
  have hcne : catalog.isEmpty = false := by
    cases hcat : catalog with
    | nil =>
      subst hcat
      have hempty : found_books [] input = [] := by
        simp only [found_books]
        split <;> simp
      rw [hempty] at h
      simp at h
    | cons x xs => rfl
  have hfne : (found_books catalog input).isEmpty = false := by
    cases hf : found_books catalog input with
    | nil => rw [hf] at h; simp at h
    | cons x xs => rfl
  refine ⟨hmem, l₁ ++ l₂, ?_, ?_⟩
  · simp only [remove_book_view_step, hcne, Bool.false_eq_true, if_false, hfne]
    rw [dif_pos h, hr]
  · rw [he]
    simp only [List.length_append, List.length_cons]
    omega

/-- Witness for C8: removing the first listed book of a two-book library
with an empty search input. -/
theorem remove_flow_safety_witness :
    0 < (found_books [bDune, bEmma] emptyInput).length ∧
    ∃ rest, remove_book_view_step [bDune, bEmma] emptyInput (some 0) = some (rest, false) ∧
      rest.length + 1 = 2 := by
  have h0 : 0 < (found_books [bDune, bEmma] emptyInput).length := by decide
  have h := remove_flow_safety [bDune, bEmma] emptyInput 0 h0
  exact ⟨h0, by simpa using h.2⟩

theorem histCount_tally (h : List (String × Nat)) (g g' : String) :
    histCount (tally h g) g' =
      if g' = g then histCount h g' + 1 else histCount h g' := by
  induction h with
  | nil =>
    by_cases hgg : g' = g
    · subst hgg
      simp [tally, histCount]
    · have hgg2 : ¬ g = g' := fun hx => hgg hx.symm
      simp [tally, histCount, hgg, hgg2]
  | cons p rest ih =>
    obtain ⟨k, n⟩ := p
    by_cases hkg : k = g
    · subst hkg
      by_cases hg' : g' = k
      · subst hg'
        simp [tally, histCount]
      · have h2 : ¬ k = g' := fun hx => hg' hx.symm
        simp [tally, histCount, hg', h2]
    · by_cases hkg' : k = g'
      · subst hkg'
        simp [tally, histCount, hkg]
      · simp [tally, histCount, hkg, hkg', ih]

theorem histCount_fold_tally (library : List Book) (h : List (String × Nat))
    (g : String) :
    histCount (library.foldl (fun acc b => tally acc (effectiveGenre b)) h) g =
      histCount h g + library.countP (fun b => effectiveGenre b = g) := by
  induction library generalizing h with
  | nil => simp
  | cons b bs ih =>
    simp only [List.foldl_cons, ih, histCount_tally, List.countP_cons]
    by_cases hg : effectiveGenre b = g
    · simp [hg]
      omega
    · have hg2 : ¬ g = effectiveGenre b := fun hx => hg hx.symm
      simp [hg, hg2]

theorem tally_keys (h : List (String × Nat)) (g : String) :
    (tally h g).map Prod.fst =
      if g ∈ h.map Prod.fst then h.map Prod.fst else h.map Prod.fst ++ [g] := by
  induction h with
  | nil => simp [tally]
  | cons p rest ih =>
    obtain ⟨k, n⟩ := p
    by_cases hkg : k = g
    · subst hkg
      simp [tally]
    · simp only [tally, if_neg hkg, List.map_cons, List.mem_cons]
      have hgk : ¬ g = k := fun hx => hkg hx.symm
      by_cases hg : g ∈ rest.map Prod.fst
      · simp [hg, ih, hgk]
      · simp [hg, ih, hgk]

theorem tally_keys_nodup {h : List (String × Nat)} (g : String)
    (hnd : (h.map Prod.fst).Nodup) : ((tally h g).map Prod.fst).Nodup := by
  rw [tally_keys]
  by_cases hg : g ∈ h.map Prod.fst
  · simpa [hg] using hnd
  · simp only [hg, if_false]
    simp [List.nodup_append, hnd, hg]

theorem genreHist_keys_nodup (library : List Book) :
    ((genreHist library).map Prod.fst).Nodup := by
  suffices hgen : ∀ h : List (String × Nat), (h.map Prod.fst).Nodup →
      ((library.foldl (fun acc b => tally acc (effectiveGenre b)) h).map Prod.fst).Nodup by
    exact hgen [] (by simp)
  induction library with
  | nil => intro h hnd; simpa using hnd
  | cons b bs ih =>
    intro h hnd
    simpa using ih (tally h (effectiveGenre b)) (tally_keys_nodup (effectiveGenre b) hnd)

/-- C3: statistics returns total = catalog length, readCount = number of
books with read = true, readPercentage = readCount / total * 100 (0 when
total = 0), and a genre histogram mapping each genre value (blank treated
as the Unknown default) to its occurrence count, with no duplicate keys;
on an empty catalog everything is zero and the histogram is empty. -/
theorem statistics_spec (library : List Book) :
    (statistics library).total = library.length ∧
    (statistics library).readCount = (library.filter fun b => b.read).length ∧
    ((statistics library).readPercentage =
      if library.length = 0 then 0
      else ((statistics library).readCount : ℚ) / (library.length : ℚ) * 100) ∧
    (∀ g : String, histCount (statistics library).genreHistogram g =
      library.countP fun b => effectiveGenre b = g) ∧
    ((statistics library).genreHistogram.map Prod.fst).Nodup ∧
    statistics [] = ⟨0, 0, 0, []⟩ := by
  refine ⟨rfl, ?_, ?_, fun g => ?_, genreHist_keys_nodup library, rfl⟩
  · simp [statistics, List.countP_eq_length_filter]
  · by_cases hl : library.length = 0 <;> simp [statistics, hl]
  · simpa [statistics, genreHist, histCount] using histCount_fold_tally library [] g

theorem listLex_trans : ∀ {l₁ l₂ l₃ : List Char},
    listLex l₁ l₂ = true → listLex l₂ l₃ = true → listLex l₁ l₃ = true
  | [], _, _, _, _ => rfl
  | _ :: _, [], _, h12, _ => by simp [listLex] at h12
  | _ :: _, _ :: _, [], _, h23 => by simp [listLex] at h23
  | a :: as, b :: bs, c :: cs, h12, h23 => by
    simp only [listLex] at h12 h23 ⊢
    by_cases hab : a.toNat = b.toNat <;> by_cases hbc : b.toNat = c.toNat
    · rw [if_pos hab] at h12
      rw [if_pos hbc] at h23
      rw [if_pos (hab.trans hbc)]
      exact listLex_trans h12 h23
    · rw [if_neg hbc] at h23
      have hlt : b.toNat < c.toNat := by simpa using h23
      have hac : ¬ a.toNat = c.toNat := by omega
      rw [if_neg hac]
      simp
      omega
    · rw [if_neg hab] at h12
      have hlt : a.toNat < b.toNat := by simpa using h12
      have hac : ¬ a.toNat = c.toNat := by omega
      rw [if_neg hac]
      simp
      omega
    · rw [if_neg hab] at h12
      rw [if_neg hbc] at h23
      have hlt1 : a.toNat < b.toNat := by simpa using h12
      have hlt2 : b.toNat < c.toNat := by simpa using h23
      have hac : ¬ a.toNat = c.toNat := by omega
      rw [if_neg hac]
      simp
      omega

theorem listLex_total : ∀ (l₁ l₂ : List Char),
    listLex l₁ l₂ = true ∨ listLex l₂ l₁ = true
  | [], _ => Or.inl rfl
  | _ :: _, [] => Or.inr rfl
  | a :: as, b :: bs => by
    simp only [listLex]
    by_cases hab : a.toNat = b.toNat
    · rw [if_pos hab, if_pos hab.symm]
      exact listLex_total as bs
    · have hba : ¬ b.toNat = a.toNat := fun hx => hab hx.symm
      rw [if_neg hab, if_neg hba]
      simp
      omega

theorem sortComparator_trans (k : SortKey) (d : SortDir) :
    ∀ a b c : Book, sortComparator k d a b → sortComparator k d b c →
      sortComparator k d a c := by
  intro a b c h1 h2
  cases d <;> cases k <;>
    simp only [sortComparator, bookLe, strLe, decide_eq_true_eq] at h1 h2 ⊢
  · exact listLex_trans h1 h2
  · exact listLex_trans h1 h2
  · omega
  · exact listLex_trans h2 h1
  · exact listLex_trans h2 h1
  · omega

theorem sortComparator_total (k : SortKey) (d : SortDir) :
    ∀ a b : Book, sortComparator k d a b || sortComparator k d b a := by
  intro a b
  cases d <;> cases k <;>
    simp only [sortComparator, bookLe, strLe, Bool.or_eq_true, decide_eq_true_eq]
  · exact listLex_total _ _
  · exact listLex_total _ _
  · omega
  · exact (listLex_total _ _).symm
  · exact (listLex_total _ _).symm
  · omega

/-- C5: for every catalog, key and direction, the sort is a permutation of
the catalog that is ordered by the case-insensitive comparison on string
keys (plain comparison on year), and it is stable: any two books in
comparator order in the catalog, equal-keyed ties included, keep their
relative order in the output.  The embedding is pure, so the stored
catalog is unchanged by taking the sorted view. -/
theorem sortBy_spec (library : List Book) (k : SortKey) (d : SortDir) :
    List.Perm (sortBy library k d) library ∧
    List.Pairwise (fun a b => sortComparator k d a b = true) (sortBy library k d) ∧
    ∀ a b : Book, sortComparator k d a b = true → List.Sublist [a, b] library →
      List.Sublist [a, b] (sortBy library k d) := by
  refine ⟨List.mergeSort_perm library (sortComparator k d), ?_, ?_⟩
  · exact List.sorted_mergeSort (sortComparator_trans k d) (sortComparator_total k d)
      library
  · intro a b hab hs
    exact List.pair_sublist_mergeSort (sortComparator_trans k d)
      (sortComparator_total k d) hab hs

/-- Witness for C5: the stability clause applied to the two sample books
under the title-ascending sort. -/
theorem sortBy_spec_witness :
    sortComparator SortKey.title SortDir.asc bDune bEmma = true ∧
    List.Sublist [bDune, bEmma] [bDune, bEmma] ∧
    List.Sublist [bDune, bEmma] (sortBy [bDune, bEmma] SortKey.title SortDir.asc) :=
  ⟨by decide, by decide,
    (sortBy_spec [bDune, bEmma] SortKey.title SortDir.asc).2.2 bDune bEmma
      (by decide) (by decide)⟩

/-- C7: sorting by title ascending is idempotent: applying the sort to an
already-sorted result yields the same order. -/
theorem sortBy_title_asc_idempotent (library : List Book) :
    sortBy (sortBy library SortKey.title SortDir.asc) SortKey.title SortDir.asc =
      sortBy library SortKey.title SortDir.asc :=
  List.mergeSort_of_sorted
    (List.sorted_mergeSort (sortComparator_trans SortKey.title SortDir.asc)
      (sortComparator_total SortKey.title SortDir.asc) library)

end LibraryManager
